import Mathlib

/-!
Verification of the signature-analysis pipeline of `ripper.py`.

Python strings are embedded as `List Nat` (Unicode code points); byte
buffers (`bytearray`) as `List Nat` of bytes.  Fallible Python code
(`ValueError`, which includes `UnicodeDecodeError`) is embedded as
`Except Unit`.  Python `dict`s built here only ever receive fresh keys
(the slot names issued by `OffsetCounter` are pairwise distinct), so they
are embedded as association lists in insertion order.
-/

/-- Code points of a Lean string literal, used to write concrete Python
strings readably. -/
def pystr (s : String) : List Nat := s.data.map Char.toNat

/-- Characters stripped by Python `str.strip()` with no argument
(the code points for which `str.isspace()` holds). -/
def isPyWs (c : Nat) : Bool :=
  [9, 10, 11, 12, 13, 28, 29, 30, 31, 32, 133, 160, 5760,
   8192, 8193, 8194, 8195, 8196, 8197, 8198, 8199, 8200, 8201, 8202,
   8232, 8233, 8239, 8287, 12288].contains c

/-- Python `s.strip()`: remove leading and trailing whitespace. -/
def pyStrip (l : List Nat) : List Nat :=
  ((l.dropWhile isPyWs).reverse.dropWhile isPyWs).reverse

/-- Python `s.lstrip(ch)` for a one-character strip set. -/
def lstripChar (ch : Nat) (l : List Nat) : List Nat :=
  l.dropWhile (fun c => c == ch)

/-- Python `s.rstrip(ch)` for a one-character strip set. -/
def rstripChar (ch : Nat) (l : List Nat) : List Nat :=
  (l.reverse.dropWhile (fun c => c == ch)).reverse

/-- Split at the first occurrence of the character `ch`:
`some (before, after)`, or `none` when `ch` does not occur. -/
def splitOnce (ch : Nat) : List Nat → Option (List Nat × List Nat)
  | [] => none
  | c :: r =>
    if c = ch then some ([], r)
    else
      match splitOnce ch r with
      | some (pre, post) => some (c :: pre, post)
      | none => none

/-- Python `s.split(ch, 1)[-1]`: the part after the first occurrence of
`ch`, or the whole string when `ch` does not occur. -/
def afterFirst (ch : Nat) (l : List Nat) : List Nat :=
  match splitOnce ch l with
  | some (_, post) => post
  | none => l

/-- Python `s.rsplit(ch, 1)[0]`: the part before the last occurrence of
`ch`, or the whole string when `ch` does not occur. -/
def beforeLast (ch : Nat) (l : List Nat) : List Nat :=
  match splitOnce ch l.reverse with
  | some (_, postRev) => postRev.reverse
  | none => l

/-- Python `s.split("::")` specialised to the two-character separator
`::` (code 58 twice), scanning left to right, non-overlapping. -/
def splitCCAux (acc : List Nat) : List Nat → List (List Nat)
  | 58 :: 58 :: rest => acc.reverse :: splitCCAux [] rest
  | c :: rest => splitCCAux (c :: acc) rest
  | [] => [acc.reverse]

/-- Python `s.split("::")`. -/
def splitCC (l : List Nat) : List (List Nat) := splitCCAux [] l

/-- Strict UTF-8 decoding of a byte list into code points, with fuel
(one unit per consumed lead byte; `utf8Decode` supplies enough).
Mirrors Python `bytes.decode()`: rejects truncated sequences, stray or
out-of-range continuation bytes, overlong encodings, surrogates and
code points above U+10FFFF. -/
def utf8DecodeAux : Nat → List Nat → Except Unit (List Nat)
  | 0, _ => .error ()
  | _, [] => .ok []
  | fuel + 1, b0 :: rest =>
    if b0 < 0x80 then
      (utf8DecodeAux fuel rest).map (fun t => b0 :: t)
    else if 0xC2 ≤ b0 ∧ b0 ≤ 0xDF then
      match rest with
      | b1 :: rest2 =>
        if 0x80 ≤ b1 ∧ b1 ≤ 0xBF then
          (utf8DecodeAux fuel rest2).map
            (fun t => ((b0 - 0xC0) * 64 + (b1 - 0x80)) :: t)
        else .error ()
      | [] => .error ()
    else if 0xE0 ≤ b0 ∧ b0 ≤ 0xEF then
      match rest with
      | b1 :: b2 :: rest2 =>
        if (if b0 = 0xE0 then 0xA0 else 0x80) ≤ b1 ∧
            b1 ≤ (if b0 = 0xED then 0x9F else 0xBF) ∧
            0x80 ≤ b2 ∧ b2 ≤ 0xBF then
          (utf8DecodeAux fuel rest2).map
            (fun t => ((b0 - 0xE0) * 4096 + (b1 - 0x80) * 64 + (b2 - 0x80)) :: t)
        else .error ()
      | _ => .error ()
    else if 0xF0 ≤ b0 ∧ b0 ≤ 0xF4 then
      match rest with
      | b1 :: b2 :: b3 :: rest2 =>
        if (if b0 = 0xF0 then 0x90 else 0x80) ≤ b1 ∧
            b1 ≤ (if b0 = 0xF4 then 0x8F else 0xBF) ∧
            0x80 ≤ b2 ∧ b2 ≤ 0xBF ∧ 0x80 ≤ b3 ∧ b3 ≤ 0xBF then
          (utf8DecodeAux fuel rest2).map
            (fun t => ((b0 - 0xF0) * 262144 + (b1 - 0x80) * 4096 +
                       (b2 - 0x80) * 64 + (b3 - 0x80)) :: t)
        else .error ()
      | _ => .error ()
    else .error ()

/-- Python `b.decode()` on a `bytearray`: strict UTF-8.  A failure is a
`UnicodeDecodeError`, a subclass of `ValueError`. -/
def utf8Decode (l : List Nat) : Except Unit (List Nat) :=
  utf8DecodeAux (l.length + 1) l

/-- Python `b.append(ord(d))` on a `bytearray`: raises `ValueError` when
the code point does not fit in a byte. -/
def byteAppend (b : List Nat) (d : Nat) : Except Unit (List Nat) :=
  if d < 256 then .ok (b ++ [d]) else .error ()

/-- The loop of `split_cpp_args` (ripper.py lines 40-59): state is the
emitted arguments `args`, the byte buffer `b` and the nesting counter
`followed_by` (a Python `int`, so `Int`). -/
def scaLoop (args : List (List Nat)) (b : List Nat) (fb : Int) :
    List Nat → Except Unit (List (List Nat))
  | [] =>
    if b.isEmpty then .ok args
    else (utf8Decode b).map (fun s => args ++ [pyStrip s])
  | d :: rest =>
    if d = 60 then
      (byteAppend b d).bind (fun b2 => scaLoop args b2 (fb + 1) rest)
    else if d = 62 then
      (byteAppend b d).bind (fun b2 => scaLoop args b2 (fb - 1) rest)
    else if d = 44 ∧ fb = 0 then
      (utf8Decode b).bind (fun s => scaLoop (args ++ [pyStrip s]) [] fb rest)
    else
      (byteAppend b d).bind (fun b2 => scaLoop args b2 fb rest)

/-- `split_cpp_args(data)` (ripper.py lines 40-59). -/
def split_cpp_args (data : List Nat) : Except Unit (List (List Nat)) :=
  scaLoop [] [] 0 data

/-- `NamespaceEnum` (ripper.py lines 12-16); `auto()` numbers the
members 1, 2, 3, 4 in declaration order. -/
inductive NamespaceEnum
  | NONE
  | STD
  | COCOS2D
  | PUGI
deriving DecidableEq, Repr

/-- The `IntEnum` integer value of a `NamespaceEnum` member. -/
def NamespaceEnum.toVal : NamespaceEnum → Nat
  | .NONE => 1
  | .STD => 2
  | .COCOS2D => 3
  | .PUGI => 4

/-- Python `member.name.lower()` for a `NamespaceEnum` member. -/
def NamespaceEnum.lowerName : NamespaceEnum → List Nat
  | .NONE => pystr "none"
  | .STD => pystr "std"
  | .COCOS2D => pystr "cocos2d"
  | .PUGI => pystr "pugi"

/-- `OffsetCounter` state (ripper.py lines 23-36). -/
structure OffsetCounter where
  i : Nat
  stack_val : Nat
deriving DecidableEq, Repr

/-- `OffsetCounter()` constructor. -/
def OffsetCounter.init : OffsetCounter := ⟨0, 0⟩

/-- Decimal rendering, as Python `"%i" % n` for a non-negative `n`. -/
def decimalOf (n : Nat) : List Nat := (Nat.toDigits 10 n).map Char.toNat

/-- Python `hex(n)` for a non-negative `n`: `0x` followed by lowercase
hexadecimal digits. -/
def pyHex (n : Nat) : List Nat :=
  pystr "0x" ++ (Nat.toDigits 16 n).map Char.toNat

/-- `OffsetCounter.next` (ripper.py lines 28-36): the issued slot name
and the updated counter. -/
def OffsetCounter.next (c : OffsetCounter) : List Nat × OffsetCounter :=
  if c.i < 4 then
    (pystr "r" ++ decimalOf c.i, ⟨c.i + 1, c.stack_val⟩)
  else
    (pystr "STACK[" ++ pyHex (c.stack_val * 4) ++ pystr "]",
      ⟨c.i, c.stack_val + 1⟩)

/-- The dict comprehension `{counter.next(): a.strip() for a in args}`
threading the counter left to right. -/
def offsetsFrom (c : OffsetCounter) : List (List Nat) → List (List Nat × List Nat)
  | [] => []
  | a :: rest => (c.next.1, pyStrip a) :: offsetsFrom c.next.2 rest

/-- Body of the `if` branch of `_make_possible_arg_offsets`
(ripper.py lines 100-106): a receiver slot bound to `"this"`, then the
arguments in order. -/
def arg_offsets_if_thiscall (args : List (List Nat)) : List (List Nat × List Nat) :=
  (OffsetCounter.init.next.1, pystr "this") ::
    offsetsFrom OffsetCounter.init.next.2 args

/-- Body of the `else` branch of `_make_possible_arg_offsets`
(ripper.py lines 107-110): arguments only, no receiver slot. -/
def arg_offsets_if_not_thiscall (args : List (List Nat)) : List (List Nat × List Nat) :=
  offsetsFrom OffsetCounter.init args

/-- `Function._make_possible_arg_offsets` (ripper.py lines 95-110).
The guard is `if self._is_this_call:` — the bound method itself, not a
call of it — and a bound method is always truthy in Python, so the
`if` branch is taken unconditionally. -/
def make_possible_arg_offsets (args : List (List Nat)) : List (List Nat × List Nat) :=
  arg_offsets_if_thiscall args

/-- `Function._find_namespace` (ripper.py lines 71-78).  The first
literal is the historical misspelling `cococs2d::`. -/
def find_namespace (func : List Nat) : NamespaceEnum :=
  if (pystr "cococs2d::").isPrefixOf func then .COCOS2D
  else if (pystr "std::").isPrefixOf func then .STD
  else if (pystr "pugi::").isPrefixOf func then .PUGI
  else .NONE

/-- `Function._is_this_call` (ripper.py lines 80-84): namespace not
`NONE`, or `len(func.split("::")) >= 2`. -/
def is_this_call (ns : NamespaceEnum) (func : List Nat) : Bool :=
  decide (ns ≠ NamespaceEnum.NONE) || decide (2 ≤ (splitCC func).length)

/-- `Function._demangle_arguments` (ripper.py lines 86-93).
Code points: `\x7b` = 123, `\x7d` = 125, `,` = 44, `(` = 40, `)` = 41. -/
def demangle_arguments (func : List Nat) : Except Unit (List (List Nat)) :=
  if func.contains 123 then
    let f := afterFirst 44 (rstripChar 125 (lstripChar 123 func))
    let data := beforeLast 41 (afterFirst 40 f)
    split_cpp_args (rstripChar 41 data)
  else if func.contains 40 then
    split_cpp_args (beforeLast 41 (afterFirst 40 func))
  else .ok []

/-- The `Function` record (ripper.py lines 62-69), fully populated by
`__attrs_post_init__`. -/
structure Function where
  mangled_func : List Nat
  demangled_func : List Nat
  args : List (List Nat)
  namespaceEnum : NamespaceEnum
  namespaceName : List Nat
  arg_offsets : List (List Nat × List Nat)
deriving DecidableEq, Repr

/-- `Function.__attrs_post_init__` (ripper.py lines 112-124).  The
external demangler is passed in as `dem` (`none` = demangle failure).
Any `ValueError` raised inside the `try` block — from `demangle` or
from `split_cpp_args`'s byte-buffer operations — lands in the `except`
branch, which overwrites `demangled_func`, `args`, `namespaceEnum` and
`namespaceName`; `arg_offsets` keeps its attrs factory value `{}`
because line 119 was never reached. -/
def mkFunction (mangled : List Nat) (dem : Option (List Nat)) : Function :=
  match dem with
  | none =>
    ⟨mangled, pystr "FAILED", [], .NONE, pystr "none", []⟩
  | some f =>
    match demangle_arguments f with
    | .error _ =>
      ⟨mangled, pystr "FAILED", [], .NONE, pystr "none", []⟩
    | .ok args =>
      let ns := find_namespace f
      ⟨mangled, f, args, ns, ns.lowerName, make_possible_arg_offsets args⟩

/-- The rejection test of `ELF.add_func` (ripper.py line 143). -/
def excluded (f : Function) : Bool :=
  f.args.any (fun a => (pystr "std::__exception_ptr").isPrefixOf a) ||
  (pystr "typeinfo name for ").isPrefixOf f.demangled_func ||
  (pystr "typeinfo for ").isPrefixOf f.demangled_func ||
  (pystr "\x7bvtable").isPrefixOf f.demangled_func

/-- `ELF.add_func` (ripper.py lines 141-146) acting on the `functions`
list; the demangler result for `func` is passed in as `dem`. -/
def add_func (fns : List Function) (mangled : List Nat) (dem : Option (List Nat)) :
    List Function :=
  let f := mkFunction mangled dem
  if excluded f then fns else fns ++ [f]

/-- The `ELF` record (ripper.py lines 127-130). -/
structure ELF where
  functions : List Function
  version : List Nat
deriving DecidableEq, Repr

/-- One entry of the `"functions"` array produced by `asdict` inside
`ELF.as_json` (ripper.py lines 132-139): fields in declaration order,
with the `IntEnum` serialized as its integer value. -/
structure JsonFunc where
  mangled_func : List Nat
  demangled_func : List Nat
  args : List (List Nat)
  namespaceEnum : Nat
  namespaceName : List Nat
  arg_offsets : List (List Nat × List Nat)
deriving DecidableEq, Repr

/-- The serialized form of one `Function`. -/
def functionToJson (f : Function) : JsonFunc :=
  ⟨f.mangled_func, f.demangled_func, f.args, f.namespaceEnum.toVal,
    f.namespaceName, f.arg_offsets⟩

/-- The output aggregate of `ELF.as_json` (ripper.py lines 132-139). -/
structure JsonOut where
  functions : List JsonFunc
  total_functions : Nat
  gd_version : List Nat
deriving DecidableEq, Repr

/-- `ELF.as_json` (ripper.py lines 132-139). -/
def ELF.as_json (e : ELF) : JsonOut :=
  ⟨e.functions.map functionToJson, e.functions.length, e.version⟩

/-- The counter state after `n` calls of `next` starting from
`OffsetCounter()`. -/
def counterAfter : Nat → OffsetCounter
  | 0 => OffsetCounter.init
  | n + 1 => ((counterAfter n).next).2

/-- The slot name issued by the `i`-th call of `next` (0-based). -/
def slotIssued (i : Nat) : List Nat := ((counterAfter i).next).1

/-- Modelled from the spec: the ArgumentSplitter contract of the claim,
written from its words — fields separated by commas at angle-bracket
nesting depth 0 (depth incremented on `<`, decremented on `>`), each
field trimmed, the trailing fragment after the last separator emitted
only if non-empty, an empty input yielding an empty sequence. -/
def specSplitAux (acc : List (List Nat)) (cur : List Nat) (depth : Int) :
    List Nat → List (List Nat)
  | [] => if cur.isEmpty then acc else acc ++ [pyStrip cur]
  | d :: rest =>
    if d = 60 then specSplitAux acc (cur ++ [d]) (depth + 1) rest
    else if d = 62 then specSplitAux acc (cur ++ [d]) (depth - 1) rest
    else if d = 44 ∧ depth = 0 then specSplitAux (acc ++ [pyStrip cur]) [] depth rest
    else specSplitAux acc (cur ++ [d]) depth rest

/-- Modelled from the spec: the argument splitter as the claim states it. -/
def specSplit (data : List Nat) : List (List Nat) :=
  specSplitAux [] [] 0 data

/-- The remainder after the first comma at angle-bracket depth 0, or
`none` when there is no such comma. -/
def afterTopLevelComma (depth : Int) : List Nat → Option (List Nat)
  | [] => none
  | c :: rest =>
    if c = 60 then afterTopLevelComma (depth + 1) rest
    else if c = 62 then afterTopLevelComma (depth - 1) rest
    else if c = 44 ∧ depth = 0 then some rest
    else afterTopLevelComma depth rest

/-- Modelled from the spec: the description of brace handling in claim C7 —
strip the outer braces, discard everything up to and including the
first top-level comma inside them (keep everything when there is
none), then apply the normal outermost-parenthesis extraction and
splitting to the remainder. -/
def bracedExtractClaim (func : List Nat) : List (List Nat) :=
  let inner := rstripChar 125 (lstripChar 123 func)
  let r := (afterTopLevelComma 0 inner).getD inner
  if r.contains 40 then specSplit (beforeLast 41 (afterFirst 40 r)) else []

/-- The amended description of brace handling: strip all leading `\x7b`
and trailing `\x7d` characters, discard everything up to and including
the first comma at any nesting depth (keeping everything when there is
none), take the part after the first `(` and before the last `)`,
strip trailing `)` characters, and split the result. -/
def c7AmendedExtract (func : List Nat) : Except Unit (List (List Nat)) :=
  let inner := rstripChar 125 (lstripChar 123 func)
  let r := afterFirst 44 inner
  split_cpp_args (rstripChar 41 (beforeLast 41 (afterFirst 40 r)))

theorem bool_eq_false (b : Bool) (h : ¬ b = true) : b = false := by
  cases b with
  | false => rfl
  | true => exact absurd rfl h

theorem exceptBind_ok {α β : Type} (v : α) (g : α → Except Unit β) :
    (Except.ok v : Except Unit α).bind g = g v := rfl

theorem exceptMap_ok {α β : Type} (g : α → β) (v : α) :
    (Except.ok v : Except Unit α).map g = Except.ok (g v) := rfl

theorem utf8DecodeAux_ascii :
    ∀ (fuel : Nat) (l : List Nat), l.length < fuel → (∀ c ∈ l, c < 128) →
      utf8DecodeAux fuel l = .ok l := by
  intro fuel
  induction fuel with
  | zero => intro l h _; exact absurd h (by omega)
  | succ n ih =>
    intro l hlen hall
    cases l with
    | nil => rfl
    | cons b0 rest =>
      have hb0 : b0 < 128 := hall b0 (by simp)
      have hrest : ∀ c ∈ rest, c < 128 := fun c hc => hall c (by simp [hc])
      have hrl : rest.length < n := by simpa using hlen
      simp only [utf8DecodeAux]
      rw [if_pos (by omega : b0 < 0x80), ih rest hrl hrest]
      rfl

theorem utf8Decode_ascii (l : List Nat) (h : ∀ c ∈ l, c < 128) :
    utf8Decode l = .ok l :=
  utf8DecodeAux_ascii (l.length + 1) l (by omega) h

theorem scaLoop_ascii :
    ∀ (data : List Nat), (∀ c ∈ data, c < 128) →
      ∀ (args : List (List Nat)) (b : List Nat) (fb : Int), (∀ c ∈ b, c < 128) →
        scaLoop args b fb data = .ok (specSplitAux args b fb data) := by
  intro data
  induction data with
  | nil =>
    intro _ args b fb hb
    simp only [scaLoop, specSplitAux]
    by_cases hbe : b.isEmpty
    · simp [hbe]
    · simp [hbe, utf8Decode_ascii b hb, exceptMap_ok]
  | cons d rest ih =>
    intro hall args b fb hb
    have hd : d < 128 := hall d (by simp)
    have hrest : ∀ c ∈ rest, c < 128 := fun c hc => hall c (by simp [hc])
    have hba : byteAppend b d = .ok (b ++ [d]) := by
      unfold byteAppend
      rw [if_pos (by omega : d < 256)]
    have hbapp : ∀ c ∈ b ++ [d], c < 128 := by
      intro c hc
      rcases List.mem_append.mp hc with h1 | h1
      · exact hb c h1
      · simp at h1; omega
    simp only [scaLoop, specSplitAux]
    by_cases h60 : d = 60
    · rw [if_pos h60, if_pos h60, hba, exceptBind_ok,
        ih hrest args (b ++ [d]) (fb + 1) hbapp]
    · rw [if_neg h60, if_neg h60]
      by_cases h62 : d = 62
      · rw [if_pos h62, if_pos h62, hba, exceptBind_ok,
        ih hrest args (b ++ [d]) (fb - 1) hbapp]
      · rw [if_neg h62, if_neg h62]
        by_cases h44 : d = 44 ∧ fb = 0
        · rw [if_pos h44, if_pos h44, utf8Decode_ascii b hb, exceptBind_ok,
            ih hrest (args ++ [pyStrip b]) [] fb (by simp)]
        · rw [if_neg h44, if_neg h44, hba, exceptBind_ok,
            ih hrest args (b ++ [d]) fb hbapp]

theorem counterAfter_spec : ∀ i : Nat, counterAfter i = ⟨min i 4, i - 4⟩ := by
  intro i
  induction i with
  | zero => rfl
  | succ n ih =>
    simp only [counterAfter, ih, OffsetCounter.next]
    by_cases h : n < 4
    · rw [if_pos (by simp only []; omega : (OffsetCounter.mk (min n 4) (n - 4)).i < 4)]
      simp only [OffsetCounter.mk.injEq]
      omega
    · rw [if_neg (by simp only []; omega : ¬ (OffsetCounter.mk (min n 4) (n - 4)).i < 4)]
      simp only [OffsetCounter.mk.injEq]
      omega

theorem isPrefixOf_head {a : Nat} {l f : List Nat}
    (h : (a :: l).isPrefixOf f = true) : f.head? = some a := by
  cases f with
  | nil => simp [List.isPrefixOf] at h
  | cons c r =>
    simp only [List.isPrefixOf, Bool.and_eq_true, beq_iff_eq] at h
    simp [h.1]

theorem distinct_heads_not_both (a b : Nat) (l1 l2 : List Nat) (hab : a ≠ b)
    {f : List Nat} (h : (a :: l1).isPrefixOf f = true) :
    (b :: l2).isPrefixOf f = false := by
  cases hb : (b :: l2).isPrefixOf f with
  | false => rfl
  | true =>
    have h1 := isPrefixOf_head h
    have h2 := isPrefixOf_head hb
    rw [h1] at h2
    exact absurd (Option.some.inj h2) hab

theorem offsetsFrom_length :
    ∀ (args : List (List Nat)) (c : OffsetCounter),
      (offsetsFrom c args).length = args.length := by
  intro args
  induction args with
  | nil => intro c; rfl
  | cons a rest ih => intro c; simp [offsetsFrom, ih]

theorem mkFunction_nsName (m : List Nat) (dem : Option (List Nat)) :
    (mkFunction m dem).namespaceName = (mkFunction m dem).namespaceEnum.lowerName := by
  cases dem with
  | none => rfl
  | some f =>
    cases h : demangle_arguments f with
    | error e => simp [mkFunction, h, NamespaceEnum.lowerName]
    | ok args => simp [mkFunction, h]

/-- Claim C3 (amended): for every input string all of whose characters
are ASCII (code point < 128), `split_cpp_args` returns exactly the
fields of the input separated by commas at angle-bracket nesting depth
0, each field trimmed, the trailing fragment after the last separator
emitted only if non-empty, and an empty input yielding an empty
sequence — i.e. exactly the claimed splitter `specSplit`. -/
theorem c3_split_ascii (data : List Nat) (h : ∀ c ∈ data, c < 128) :
    split_cpp_args data = .ok (specSplit data) :=
  scaLoop_ascii data h [] [] 0 (by simp)

/-- Witness for C3 at the template example from the claim. -/
theorem c3_split_ascii_witness :
    split_cpp_args (pystr "std::map<int, std::string>, float") =
      .ok [pystr "std::map<int, std::string>", pystr "float"] := by
  rw [c3_split_ascii (pystr "std::map<int, std::string>, float") (by decide)]
  exact congrArg Except.ok (by decide)

/-- Counterexample to C3 as stated: on the one-character input `α`
(code point 945, outside the single-byte range) the byte-buffer append
raises `ValueError`, so the splitter does not return the claimed
one-field sequence. -/
theorem c3_counterexample :
    split_cpp_args [945] = .error () ∧ specSplit [945] = [[945]] ∧
      split_cpp_args [945] ≠ .ok (specSplit [945]) := by
  refine ⟨rfl, rfl, fun h => ?_⟩
  have h2 : (Except.error () : Except Unit (List (List Nat))) =
      Except.ok [[945]] := h
  exact Except.noConfusion h2

/-- Claim C2: the `i`-th slot issued (0-based) is register `r<i>` for
`i < 4` and `STACK[<hex of 4*(i-4)>]` for `i ≥ 4`, so the four
register slots are exhausted strictly before any stack slot and stack
offsets run contiguously in 4-byte increments; with member-call true
the first issued slot is bound to `"this"` regardless of argument
count, and with zero arguments the slot map is exactly
`r0 ↦ "this"`. -/
theorem c2_slot_order :
    (∀ i : Nat,
      (i < 4 → slotIssued i = pystr "r" ++ decimalOf i) ∧
      (4 ≤ i → slotIssued i = pystr "STACK[" ++ pyHex (4 * (i - 4)) ++ pystr "]")) ∧
    arg_offsets_if_thiscall [] = [(pystr "r0", pystr "this")] ∧
    (∀ args, (arg_offsets_if_thiscall args).head? = some (pystr "r0", pystr "this")) := by
  refine ⟨fun i => ⟨fun h4 => ?_, fun h4 => ?_⟩, by decide, fun args => rfl⟩
  · show ((counterAfter i).next).1 = _
    rw [counterAfter_spec i]
    unfold OffsetCounter.next
    rw [if_pos (by simpa using (by omega : min i 4 < 4))]
    have : min i 4 = i := by omega
    rw [this]
  · show ((counterAfter i).next).1 = _
    rw [counterAfter_spec i]
    unfold OffsetCounter.next
    rw [if_neg (by simpa using (by omega : ¬ min i 4 < 4))]
    have h1 : min i 4 = 4 := by omega
    have h2 : (i - 4) * 4 = 4 * (i - 4) := Nat.mul_comm _ _
    simp only []
    rw [h2]

/-- Witness for C2 at concrete slot indices 2 and 5. -/
theorem c2_slot_order_witness :
    slotIssued 2 = pystr "r2" ∧ slotIssued 5 = pystr "STACK[0x4]" :=
  ⟨((c2_slot_order.1 2).1 (by omega)).trans (by decide),
    ((c2_slot_order.1 5).2 (by omega)).trans (by decide)⟩

/-- Claim C4: when the demangler rejects a mangled name, the record is
fully populated with the failure shape — `demangled_name = "FAILED"`,
no arguments, namespace `NONE`, empty slot map — it is not excluded,
and it is still appended to the output collection. -/
theorem c4_demangle_failure (fns : List Function) (m : List Nat) :
    mkFunction m none =
      ⟨m, pystr "FAILED", [], .NONE, pystr "none", []⟩ ∧
    excluded (mkFunction m none) = false ∧
    add_func fns m none = fns ++ [mkFunction m none] := by
  refine ⟨rfl, rfl, ?_⟩
  have hex : excluded (mkFunction m none) = false := rfl
  show (if excluded (mkFunction m none) then fns else fns ++ [mkFunction m none]) = _
  rw [hex]
  simp

/-- Claim C5: a fully constructed record is rejected (the collection is
returned unchanged) if and only if some argument starts with
`std::__exception_ptr` or the demangled name starts with one of
`typeinfo name for `, `typeinfo for `, `\x7bvtable`; otherwise the
record is appended at the end, so after every insertion the collection
holds only records that passed the policy, in insertion order. -/
theorem c5_exclusion_policy (fns : List Function) (m : List Nat)
    (dem : Option (List Nat)) :
    (excluded (mkFunction m dem) = true ↔
      ((∃ a ∈ (mkFunction m dem).args,
          (pystr "std::__exception_ptr").isPrefixOf a = true) ∨
        (pystr "typeinfo name for ").isPrefixOf (mkFunction m dem).demangled_func = true ∨
        (pystr "typeinfo for ").isPrefixOf (mkFunction m dem).demangled_func = true ∨
        (pystr "\x7bvtable").isPrefixOf (mkFunction m dem).demangled_func = true)) ∧
    (excluded (mkFunction m dem) = true → add_func fns m dem = fns) ∧
    (excluded (mkFunction m dem) = false →
      add_func fns m dem = fns ++ [mkFunction m dem]) ∧
    ((∀ g ∈ fns, excluded g = false) →
      ∀ g ∈ add_func fns m dem, excluded g = false) := by
  refine ⟨?_, fun h => ?_, fun h => ?_, fun hfns g hg => ?_⟩
  · simp [excluded, List.any_eq_true, Bool.or_eq_true, or_assoc]
  · show (if excluded (mkFunction m dem) then fns else _) = fns
    rw [if_pos h]
  · show (if excluded (mkFunction m dem) then fns else _) = fns ++ [mkFunction m dem]
    rw [h]
    simp
  · by_cases h : excluded (mkFunction m dem) = true
    · have : add_func fns m dem = fns := by
        show (if excluded (mkFunction m dem) then fns else _) = fns
        rw [if_pos h]
      rw [this] at hg
      exact hfns g hg
    · have hf := bool_eq_false _ h
      have : add_func fns m dem = fns ++ [mkFunction m dem] := by
        show (if excluded (mkFunction m dem) then fns else _) = _
        rw [hf]
        simp
      rw [this] at hg
      rcases List.mem_append.mp hg with h1 | h1
      · exact hfns g h1
      · rw [List.mem_singleton.mp h1]
        exact hf

/-- Witness for C5: a record the policy accepts is appended. -/
theorem c5_exclusion_policy_witness :
    add_func [] (pystr "_Z1fv") (some (pystr "f()")) =
      [mkFunction (pystr "_Z1fv") (some (pystr "f()"))] :=
  (c5_exclusion_policy [] (pystr "_Z1fv") (some (pystr "f()"))).2.2.1 rfl

/-- Claim C6: the namespace classifier returns `COCOS2D` exactly for
strings starting with the literal misspelled `cococs2d::`, `STD`
exactly for `std::`, `PUGI` exactly for `pugi::`, and `NONE` exactly
for strings matching none of these. -/
theorem c6_namespace_classifier (f : List Nat) :
    (find_namespace f = .COCOS2D ↔ (pystr "cococs2d::").isPrefixOf f = true) ∧
    (find_namespace f = .STD ↔ (pystr "std::").isPrefixOf f = true) ∧
    (find_namespace f = .PUGI ↔ (pystr "pugi::").isPrefixOf f = true) ∧
    (find_namespace f = .NONE ↔
      ((pystr "cococs2d::").isPrefixOf f = false ∧
        (pystr "std::").isPrefixOf f = false ∧
        (pystr "pugi::").isPrefixOf f = false)) := by
  by_cases hc : (pystr "cococs2d::").isPrefixOf f = true
  · have hs : (pystr "std::").isPrefixOf f = false :=
      distinct_heads_not_both 99 115 (pystr "ococs2d::") (pystr "td::") (by decide) hc
    have hp : (pystr "pugi::").isPrefixOf f = false :=
      distinct_heads_not_both 99 112 (pystr "ococs2d::") (pystr "ugi::") (by decide) hc
    simp [find_namespace, hc, hs, hp]
  · have hc2 := bool_eq_false _ hc
    by_cases hs : (pystr "std::").isPrefixOf f = true
    · have hp : (pystr "pugi::").isPrefixOf f = false :=
        distinct_heads_not_both 115 112 (pystr "td::") (pystr "ugi::") (by decide) hs
      simp [find_namespace, hc2, hs, hp]
    · have hs2 := bool_eq_false _ hs
      by_cases hp : (pystr "pugi::").isPrefixOf f = true
      · simp [find_namespace, hc2, hs2, hp]
      · have hp2 := bool_eq_false _ hp
        simp [find_namespace, hc2, hs2, hp2]

/-- Witness for C6 at one matching and one non-matching string. -/
theorem c6_namespace_classifier_witness :
    find_namespace (pystr "std::vector<int>::size() const") = .STD ∧
    find_namespace (pystr "func(int)") = .NONE :=
  ⟨(c6_namespace_classifier (pystr "std::vector<int>::size() const")).2.1.mpr
      (by decide),
    (c6_namespace_classifier (pystr "func(int)")).2.2.2.mpr (by decide)⟩

/-- Counterexample to C7 as stated: on the brace-wrapped signature
`\x7bf<a,b>(x), g(y)\x7d` the code discards through the first comma at
any depth (here the one nested inside `<a,b>`), yielding
`["x)", "g(y"]`, while the claimed rule (discard through the first
TOP-LEVEL comma, then extract between the outermost parentheses)
yields `["y"]`. -/
theorem c7_counterexample :
    demangle_arguments (pystr "\x7bf<a,b>(x), g(y)\x7d") =
      .ok [pystr "x)", pystr "g(y"] ∧
    bracedExtractClaim (pystr "\x7bf<a,b>(x), g(y)\x7d") = [pystr "y"] ∧
    demangle_arguments (pystr "\x7bf<a,b>(x), g(y)\x7d") ≠
      .ok (bracedExtractClaim (pystr "\x7bf<a,b>(x), g(y)\x7d")) := by
  refine ⟨rfl, rfl, fun h => ?_⟩
  have h2 : (Except.ok [pystr "x)", pystr "g(y"] : Except Unit (List (List Nat))) =
      .ok [pystr "y"] := h
  injection h2 with h3
  exact absurd h3 (by decide)

/-- Claim C7 (amended): for every signature wrapped in outer braces,
argument extraction strips the leading `\x7b` and trailing `\x7d`
characters, discards everything up to and including the first comma at
ANY nesting depth (keeping everything when there is no comma), then
takes the part after the first `(` and before the last `)`, strips
trailing `)` characters, and splits the result. -/
theorem c7_braced_extraction_amended (s : List Nat) :
    demangle_arguments (123 :: s ++ [125]) = c7AmendedExtract (123 :: s ++ [125]) := by
  have hc : (123 :: s ++ [125]).contains 123 = true := by simp
  simp only [demangle_arguments, c7AmendedExtract, hc, if_pos]

/-- Claim C8: the serialized aggregate has `total_functions` equal to
the length of its `functions` array, which is the input records in
insertion order; `gd-version` is the caller-supplied tag; the
serialized `namespaceEnum` is the 1-based ordinal of the namespace tag
(`NONE`=1, `STD`=2, `COCOS2D`=3, `PUGI`=4) and `namespaceName` is the
lowercase name of that tag for every constructed record. -/
theorem c8_as_json_contract (e : ELF) (m : List Nat) (dem : Option (List Nat)) :
    e.as_json.total_functions = e.as_json.functions.length ∧
    e.as_json.gd_version = e.version ∧
    e.as_json.functions = e.functions.map functionToJson ∧
    NamespaceEnum.toVal .NONE = 1 ∧ NamespaceEnum.toVal .STD = 2 ∧
    NamespaceEnum.toVal .COCOS2D = 3 ∧ NamespaceEnum.toVal .PUGI = 4 ∧
    (functionToJson (mkFunction m dem)).namespaceEnum =
      (mkFunction m dem).namespaceEnum.toVal ∧
    (functionToJson (mkFunction m dem)).namespaceName =
      (mkFunction m dem).namespaceEnum.lowerName := by
  refine ⟨?_, rfl, rfl, rfl, rfl, rfl, rfl, rfl, mkFunction_nsName m dem⟩
  simp [ELF.as_json]

/-- Claim C9: whenever record construction completes successfully after
the demangler accepts the name, the slot map unconditionally has the
receiver entry — its first slot is `r0` bound to `"this"` and it has
exactly `len(arguments) + 1` entries — because `_make_possible_arg_offsets`
is the member-call branch unconditionally (the guard tests the truthy
bound method `self._is_this_call`, never calling it). -/
theorem c9_receiver_always (m f : List Nat) (args : List (List Nat))
    (h : demangle_arguments f = .ok args) :
    (mkFunction m (some f)).arg_offsets.length =
      (mkFunction m (some f)).args.length + 1 ∧
    (mkFunction m (some f)).arg_offsets.head? = some (pystr "r0", pystr "this") ∧
    make_possible_arg_offsets args = arg_offsets_if_thiscall args := by
  refine ⟨?_, ?_, rfl⟩
  · simp [mkFunction, h, make_possible_arg_offsets, arg_offsets_if_thiscall,
      offsetsFrom_length]
  · simp only [mkFunction, h]
    rfl

/-- Witness for C9 at a successfully analysed one-argument signature. -/
theorem c9_receiver_always_witness :
    (mkFunction (pystr "_Z3fooi") (some (pystr "foo(int)"))).arg_offsets.length =
      (mkFunction (pystr "_Z3fooi") (some (pystr "foo(int)"))).args.length + 1 ∧
    (mkFunction (pystr "_Z3fooi") (some (pystr "foo(int)"))).arg_offsets.head? =
      some (pystr "r0", pystr "this") :=
  ⟨(c9_receiver_always (pystr "_Z3fooi") (pystr "foo(int)") [pystr "int"] rfl).1,
    (c9_receiver_always (pystr "_Z3fooi") (pystr "foo(int)") [pystr "int"] rfl).2.1⟩

/-- Claim C10: a `ValueError` raised after successful demangling (the
splitter rejecting a character outside the single-byte range, or a
byte-buffer decode failure) leaves the record in exactly the complete
failure shape of a demangle failure — never partially populated. -/
theorem c10_valueerror_atomic (m f : List Nat)
    (h : demangle_arguments f = .error ()) :
    mkFunction m (some f) = mkFunction m none ∧
    (mkFunction m (some f)).demangled_func = pystr "FAILED" ∧
    (mkFunction m (some f)).args = [] ∧
    (mkFunction m (some f)).namespaceEnum = .NONE ∧
    (mkFunction m (some f)).namespaceName = pystr "none" ∧
    (mkFunction m (some f)).arg_offsets = [] := by
  have h1 : mkFunction m (some f) = mkFunction m none := by
    simp [mkFunction, h]
  refine ⟨h1, ?_, ?_, ?_, ?_, ?_⟩ <;> rw [h1] <;> rfl

/-- Witness for C10: the signature `f(α)` demangles fine but its
argument `α` (code point 945) makes the byte-buffer append raise, and
the record collapses to the failure shape. -/
theorem c10_valueerror_atomic_witness :
    mkFunction (pystr "_Z1f") (some (pystr "f(α)")) = mkFunction (pystr "_Z1f") none :=
  (c10_valueerror_atomic (pystr "_Z1f") (pystr "f(α)") rfl).1

/-- Claim C1: the code belies the claim.  On the demangled signature
`func(int)` the this-call heuristic is false (namespace `NONE`, no
scope token), so the claim requires no receiver slot and exactly one
slot entry; but `_make_possible_arg_offsets` tests the truthiness of
the bound method `self._is_this_call` instead of calling it, so the
member branch always runs: the slot map is
`r0 ↦ "this", r1 ↦ "int"` with two entries, while the unreachable
non-member branch would have produced `r0 ↦ "int"`. -/
theorem c1_thiscall_guard_bug :
    is_this_call (mkFunction (pystr "_Z4funci") (some (pystr "func(int)"))).namespaceEnum
      (pystr "func(int)") = false ∧
    (mkFunction (pystr "_Z4funci") (some (pystr "func(int)"))).args = [pystr "int"] ∧
    (mkFunction (pystr "_Z4funci") (some (pystr "func(int)"))).arg_offsets =
      [(pystr "r0", pystr "this"), (pystr "r1", pystr "int")] ∧
    arg_offsets_if_not_thiscall [pystr "int"] = [(pystr "r0", pystr "int")] := by
  refine ⟨by decide, by decide, by decide, by decide⟩
